import Mathlib

/-!
Shallow embedding of the trailer-booking server (src/server.js).

The server is a thin REST layer over one sqlite table `bookings` with a
`UNIQUE(date, slot)` constraint.  We model the table as a list of rows plus
the AUTOINCREMENT counter, each route handler as a pure function on that
state, and the optional e-mail side channel as an event trace.
-/

deriving instance DecidableEq for Except

/-- A row of the `bookings` table.  `date TEXT NOT NULL`, `slot INTEGER NOT
NULL`, the customer fields are nullable, `status TEXT DEFAULT 'booked'`. -/
structure Booking where
  id : Nat
  date : String
  slot : Int
  name : Option String := none
  phone : Option String := none
  email : Option String := none
  address : Option String := none
  notes : Option String := none
  status : String := "booked"
deriving Repr, DecidableEq

/-- The database: the rows of `bookings` plus the AUTOINCREMENT counter
(`this.lastID` of the next successful insert). -/
structure DBState where
  rows : List Booking
  nextId : Nat
deriving Repr, DecidableEq

/-- The empty database; sqlite AUTOINCREMENT starts handing out ids at 1. -/
def dbEmpty : DBState := ⟨[], 1⟩

/-- A JSON error response: HTTP status code plus the `error` field. -/
structure ErrResp where
  status : Nat
  error : String
deriving Repr, DecidableEq

/-- `res.status(400).json({ error: "Slot already booked" })` — the one error
POST /book ever produces, for any failed insert. -/
def slotConflictErr : ErrResp := ⟨400, "Slot already booked"⟩

/-- `res.status(400).json({ error: "Missing date" })` from GET /availability. -/
def missingDateErr : ErrResp := ⟨400, "Missing date"⟩

/-- `res.status(400).json({ error: "Missing id" })` from the admin routes. -/
def missingIdErr : ErrResp := ⟨400, "Missing id"⟩

/-- `res.status(404).json({ error: "Not found" })` from the admin routes. -/
def notFoundErr : ErrResp := ⟨404, "Not found"⟩

/-- JavaScript truthiness of an optional string (`!x` is true for a missing
field and for the empty string). -/
def truthyStr : Option String → Bool
  | none => false
  | some s => s != ""

/-- JavaScript truthiness of an optional numeric id (`!id` is true for a
missing field and for 0). -/
def truthyNat : Option Nat → Bool
  | none => false
  | some n => n != 0

/-- The fixed slot catalog, in the iteration order of
`Object.keys({1: .., 2: .., 3: ..})` (ascending integer keys). -/
def slotCatalog : List (Int × String) :=
  [(1, "9:00 AM - 12:00 PM"), (2, "12:00 PM - 3:00 PM"), (3, "3:00 PM - 6:00 PM")]

/-- One element of the GET /availability response. -/
structure AvailEntry where
  slot : Int
  label : String
  available : Bool
deriving Repr, DecidableEq

/-- GET /availability: 400 when the `date` query parameter is falsy, else one
entry per catalog slot with `available = !booked.includes(slot)` where
`booked` comes from `SELECT slot FROM bookings WHERE date = ? AND
status = 'booked'`. -/
def checkAvailability (dateq : Option String) (st : DBState) :
    Except ErrResp (List AvailEntry) :=
  if truthyStr dateq = false then .error missingDateErr
  else
    let d := dateq.getD ""
    let booked :=
      (st.rows.filter (fun r => r.date == d && r.status == "booked")).map Booking.slot
    .ok (slotCatalog.map (fun p => ⟨p.1, p.2, !(booked.contains p.1)⟩))

/-- The body of POST /book; every field may be absent. -/
structure BookReq where
  date : Option String := none
  slot : Option Int := none
  name : Option String := none
  phone : Option String := none
  email : Option String := none
  address : Option String := none
  notes : Option String := none
deriving Repr, DecidableEq

/-- Whether an existing row violates `UNIQUE(date, slot)` for an insert. -/
def hasConflict (st : DBState) (d : String) (sl : Int) : Bool :=
  st.rows.any (fun r => r.date == d && r.slot == sl)

/-- POST /book: the INSERT with no prior validation.  A missing `date` or
`slot` binds NULL and violates NOT NULL; a duplicate `(date, slot)` violates
UNIQUE; either way the single error callback answers
400 `"Slot already booked"`.  On success the new row gets status `'booked'`
and the response carries `this.lastID`. -/
def createBooking (req : BookReq) (st : DBState) :
    Except ErrResp (Nat × DBState) :=
  match req.date, req.slot with
  | some d, some sl =>
    if hasConflict st d sl then .error slotConflictErr
    else
      .ok (st.nextId,
        ⟨st.rows ++
          [⟨st.nextId, d, sl, req.name, req.phone, req.email, req.address,
            req.notes, "booked"⟩],
         st.nextId + 1⟩)
  | _, _ => .error slotConflictErr

/-- The `ORDER BY date, slot` comparison: `date` is TEXT (byte-lexicographic),
`slot` INTEGER. -/
def bookingLE (a b : Booking) : Prop :=
  a.date < b.date ∨ (a.date = b.date ∧ a.slot ≤ b.slot)

instance : DecidableRel bookingLE := fun a b =>
  inferInstanceAs (Decidable (a.date < b.date ∨ (a.date = b.date ∧ a.slot ≤ b.slot)))

/-- GET /admin/bookings: with a truthy `date` query parameter,
`SELECT * FROM bookings WHERE date = ? ORDER BY date, slot`; otherwise
`SELECT * FROM bookings ORDER BY date, slot`. -/
def listBookings (dateq : Option String) (st : DBState) : List Booking :=
  if truthyStr dateq then
    List.insertionSort bookingLE (st.rows.filter (fun r => r.date == dateq.getD ""))
  else
    List.insertionSort bookingLE st.rows

/-- The effect of `UPDATE bookings SET status = ? WHERE id = ?` on one row. -/
def setStatus (newStatus : String) (i : Nat) (r : Booking) : Booking :=
  if r.id == i then { r with status := newStatus } else r

/-- POST /admin/cancel: 400 on a falsy id, 404 when
`SELECT * FROM bookings WHERE id = ?` finds nothing, otherwise
`UPDATE bookings SET status = 'canceled' WHERE id = ?` and `{success: true}`. -/
def cancelBooking (oid : Option Nat) (st : DBState) : Except ErrResp DBState :=
  if truthyNat oid = false then .error missingIdErr
  else
    let i := oid.getD 0
    match st.rows.find? (fun r => r.id == i) with
    | none => .error notFoundErr
    | some _ => .ok ⟨st.rows.map (setStatus "canceled" i), st.nextId⟩

/-- POST /admin/complete: identical to cancel but sets status `'completed'`,
with no check of the row's current status. -/
def completeBooking (oid : Option Nat) (st : DBState) : Except ErrResp DBState :=
  if truthyNat oid = false then .error missingIdErr
  else
    let i := oid.getD 0
    match st.rows.find? (fun r => r.id == i) with
    | none => .error notFoundErr
    | some _ => .ok ⟨st.rows.map (setStatus "completed" i), st.nextId⟩

/-! ## Event traces for the notification side channel

Each handler body is a sequence of awaited steps.  We record the observable
events in execution order: every completed outbound e-mail call (with the
network outcome the handler awaited) and the moment `res.json`/`res.status`
sends the response.  The network outcome of a send is supplied by an oracle
`String → Bool`, standing for whatever the Resend API does. -/

inductive Event where
  | emailSend (recipient : String) (ok : Bool)
  | respond (status : Nat)
deriving Repr, DecidableEq

/-- The e-mail environment variables (empty string means unset). -/
structure EmailCfg where
  resendApiKey : String := ""
  fromEmail : String := ""
  ownerNotifyEmail : String := ""
deriving Repr, DecidableEq

/-- `sendEmail`: silently does nothing without full configuration or a
recipient; otherwise performs the network call, swallowing any failure
(the caller sees unit either way, only the trace records the outcome). -/
def sendEmailTrace (cfg : EmailCfg) (oracle : String → Bool) (recipient : String) :
    List Event :=
  if cfg.resendApiKey = "" ∨ cfg.fromEmail = "" ∨ recipient = "" then []
  else [.emailSend recipient (oracle recipient)]

/-- POST /book, with its trace: on a failed insert it responds 400 at once;
on success it awaits the owner e-mail (if `OWNER_NOTIFY_EMAIL` is set), then
the customer e-mail (if the request carried one), and only then responds. -/
def bookHandler (cfg : EmailCfg) (oracle : String → Bool) (req : BookReq)
    (st : DBState) : Except ErrResp (Nat × DBState) × List Event :=
  match createBooking req st with
  | .error e => (.error e, [.respond e.status])
  | .ok (bid, st') =>
    let ownerT :=
      if cfg.ownerNotifyEmail != "" then sendEmailTrace cfg oracle cfg.ownerNotifyEmail
      else []
    let custT :=
      if truthyStr req.email then sendEmailTrace cfg oracle (req.email.getD "")
      else []
    (.ok (bid, st'), ownerT ++ custT ++ [.respond 200])

/-- POST /admin/cancel with its trace: errors respond at once; on success the
owner e-mail and then the customer e-mail (if the row has one) are awaited
before the `{success: true}` response. -/
def cancelHandler (cfg : EmailCfg) (oracle : String → Bool) (oid : Option Nat)
    (st : DBState) : Except ErrResp DBState × List Event :=
  if truthyNat oid = false then (.error missingIdErr, [.respond 400])
  else
    let i := oid.getD 0
    match st.rows.find? (fun r => r.id == i) with
    | none => (.error notFoundErr, [.respond 404])
    | some row =>
      let ownerT :=
        if cfg.ownerNotifyEmail != "" then sendEmailTrace cfg oracle cfg.ownerNotifyEmail
        else []
      let custT :=
        if truthyStr row.email then sendEmailTrace cfg oracle (row.email.getD "")
        else []
      (.ok ⟨st.rows.map (setStatus "canceled" i), st.nextId⟩,
       ownerT ++ custT ++ [.respond 200])

/-- POST /admin/complete with its trace; same shape as cancel. -/
def completeHandler (cfg : EmailCfg) (oracle : String → Bool) (oid : Option Nat)
    (st : DBState) : Except ErrResp DBState × List Event :=
  if truthyNat oid = false then (.error missingIdErr, [.respond 400])
  else
    let i := oid.getD 0
    match st.rows.find? (fun r => r.id == i) with
    | none => (.error notFoundErr, [.respond 404])
    | some row =>
      let ownerT :=
        if cfg.ownerNotifyEmail != "" then sendEmailTrace cfg oracle cfg.ownerNotifyEmail
        else []
      let custT :=
        if truthyStr row.email then sendEmailTrace cfg oracle (row.email.getD "")
        else []
      (.ok ⟨st.rows.map (setStatus "completed" i), st.nextId⟩,
       ownerT ++ custT ++ [.respond 200])

/-- A trace begins with the response (nothing was awaited before it). -/
def respondFirst : List Event → Bool
  | Event.respond _ :: _ => true
  | _ => false

/-- A trace ends with the response (everything else was awaited before it). -/
def lastRespond (l : List Event) : Bool :=
  match l.getLast? with
  | some (Event.respond _) => true
  | _ => false

/-! ## Predicates used to state the claims -/

/-- The availability response exists and marks slot `sl` free wherever it
reports it. -/
def reportsFree (resp : Except ErrResp (List AvailEntry)) (sl : Int) : Prop :=
  ∃ l, resp = .ok l ∧ ∀ e ∈ l, e.slot = sl → e.available = true

/-- The availability response is the full catalog, in catalog order, with
`available` true exactly when no booked row occupies `(d, slot)`. -/
def availabilityCorrect (d : String) (rows : List Booking)
    (resp : Except ErrResp (List AvailEntry)) : Prop :=
  ∃ l, resp = .ok l ∧ l.map AvailEntry.slot = [1, 2, 3] ∧
    ∀ e ∈ l, (e.available = true ↔
      ¬ ∃ r ∈ rows, r.date = d ∧ r.slot = e.slot ∧ r.status = "booked")

/-- The booking response succeeded and the new state holds a fresh row for
`(d, sl)` carrying the returned id. -/
def insertsRow (d : String) (sl : Int) (out : Except ErrResp (Nat × DBState)) :
    Prop :=
  ∃ bid st', out = .ok (bid, st') ∧
    ∃ r ∈ st'.rows, r.id = bid ∧ r.date = d ∧ r.slot = sl ∧ r.status = "booked"

/-- Every row of `new` is a row of `old`, either unchanged or with only its
status overwritten by `newStatus`. -/
def stepAllowed (newStatus : String) (old new : List Booking) : Prop :=
  ∀ r' ∈ new, ∃ r ∈ old, r' = r ∨ r' = { r with status := newStatus }

/-- No two rows collide on `(date, slot)` — the `UNIQUE(date, slot)`
constraint the store maintains. -/
def uniqueSlots (rows : List Booking) : Prop :=
  rows.Pairwise (fun a b => ¬(a.date = b.date ∧ a.slot = b.slot))

/-! ## Helper lemmas -/

theorem bookingLE_total (a b : Booking) : bookingLE a b ∨ bookingLE b a := by
  unfold bookingLE
  rcases lt_trichotomy a.date b.date with h | h | h
  · exact Or.inl (Or.inl h)
  · rcases le_total a.slot b.slot with hs | hs
    · exact Or.inl (Or.inr ⟨h, hs⟩)
    · exact Or.inr (Or.inr ⟨h.symm, hs⟩)
  · exact Or.inr (Or.inl h)

instance : IsTotal Booking bookingLE := ⟨bookingLE_total⟩

theorem bookingLE_trans (a b c : Booking) (hab : bookingLE a b)
    (hbc : bookingLE b c) : bookingLE a c := by
  unfold bookingLE at hab hbc ⊢
  rcases hab with h1 | ⟨h1, h1s⟩ <;> rcases hbc with h2 | ⟨h2, h2s⟩
  · exact Or.inl (h1.trans h2)
  · exact Or.inl (by rw [← h2]; exact h1)
  · exact Or.inl (by rw [h1]; exact h2)
  · exact Or.inr ⟨h1.trans h2, h1s.trans h2s⟩

instance : IsTrans Booking bookingLE := ⟨bookingLE_trans⟩

theorem setStatus_eq_self {s : String} {i : Nat} {r : Booking}
    (h : r.status = s) : setStatus s i r = r := by
  unfold setStatus
  split
  · rw [← h]
  · rfl

theorem cancelBooking_ok {oid : Option Nat} {st st' : DBState}
    (h : cancelBooking oid st = .ok st') :
    st' = ⟨st.rows.map (setStatus "canceled" (oid.getD 0)), st.nextId⟩ := by
  unfold cancelBooking at h
  split at h
  · exact absurd h (by simp)
  · cases hf : st.rows.find? (fun r => r.id == oid.getD 0) with
    | none => simp only [hf] at h; exact absurd h (by simp)
    | some r => simp only [hf, Except.ok.injEq] at h; exact h.symm

theorem contains_booked_slot_iff (rows : List Booking) (d : String) (sl : Int) :
    (((rows.filter (fun r => r.date == d && r.status == "booked")).map
        Booking.slot).contains sl = true) ↔
      ∃ r ∈ rows, r.date = d ∧ r.slot = sl ∧ r.status = "booked" := by
  rw [show (((rows.filter (fun r => r.date == d && r.status == "booked")).map
        Booking.slot).contains sl = true) ↔ sl ∈ ((rows.filter
        (fun r => r.date == d && r.status == "booked")).map Booking.slot) from
      List.elem_iff]
  simp only [List.mem_map, List.mem_filter, Bool.and_eq_true, beq_iff_eq]
  constructor
  · rintro ⟨r, ⟨hm, hd, hs⟩, hsl⟩
    exact ⟨r, hm, hd, hsl, hs⟩
  · rintro ⟨r, hm, hd, hsl, hs⟩
    exact ⟨r, ⟨hm, hd, hs⟩, hsl⟩

/-! ## Claims -/

/-- C1: when `createBooking(d, s, ...)` succeeds it returns the newly
assigned booking id (carried by the inserted row), and an immediately
following second `createBooking(d, s, ...)` fails with the `SlotConflict`
rejection (HTTP 400, "Slot already booked"), leaving the first booking row
in place. -/
theorem C1_create_then_conflict (req req2 : BookReq) (d : String) (sl : Int)
    (st st' : DBState) (bid : Nat)
    (hd : req.date = some d) (hs : req.slot = some sl)
    (hd2 : req2.date = some d) (hs2 : req2.slot = some sl)
    (h : createBooking req st = .ok (bid, st')) :
    bid = st.nextId ∧
    (∃ r ∈ st'.rows, r.id = bid ∧ r.date = d ∧ r.slot = sl ∧ r.status = "booked") ∧
    createBooking req2 st' = .error slotConflictErr := by
  unfold createBooking at h
  rw [hd, hs] at h
  by_cases hc : hasConflict st d sl = true
  · simp only [hc, if_true] at h
    exact absurd h (by simp)
  · rw [Bool.not_eq_true] at hc
    simp only [hc, Bool.false_eq_true, if_false, Except.ok.injEq,
      Prod.mk.injEq] at h
    obtain ⟨hbid, hst⟩ := h
    subst hst
    refine ⟨hbid.symm, ⟨⟨st.nextId, d, sl, req.name, req.phone, req.email,
      req.address, req.notes, "booked"⟩, by simp, by simp [hbid.symm]⟩, ?_⟩
    have hc2 : hasConflict ⟨st.rows ++
        [⟨st.nextId, d, sl, req.name, req.phone, req.email, req.address,
          req.notes, "booked"⟩], st.nextId + 1⟩ d sl = true := by
      unfold hasConflict
      simp
    unfold createBooking
    rw [hd2, hs2]
    simp only [hc2, if_true]

def c1St : DBState :=
  ⟨[⟨1, "2024-05-01", 1, none, none, none, none, none, "booked"⟩], 2⟩

theorem C1_create_then_conflict_witness :
    (1 : Nat) = dbEmpty.nextId ∧
    (∃ r ∈ c1St.rows, r.id = 1 ∧ r.date = "2024-05-01" ∧ r.slot = 1 ∧
      r.status = "booked") ∧
    createBooking { date := some "2024-05-01", slot := some 1 } c1St =
      .error slotConflictErr :=
  C1_create_then_conflict { date := some "2024-05-01", slot := some 1 }
    { date := some "2024-05-01", slot := some 1 } "2024-05-01" 1 dbEmpty c1St 1
    rfl rfl rfl rfl (by decide)

theorem checkAvailability_eq (d : String) (hd : d ≠ "") (st : DBState) :
    checkAvailability (some d) st =
      .ok (slotCatalog.map (fun p =>
        ⟨p.1, p.2,
          !(((st.rows.filter (fun r => r.date == d && r.status == "booked")).map
            Booking.slot).contains p.1)⟩)) := by
  unfold checkAvailability
  rw [if_neg (by simp [truthyStr, hd])]
  rfl

/-- C2: `checkAvailability` rejects a missing or empty date with the
`InvalidInput` 400 "Missing date" response; for any non-empty date it
returns exactly one entry per catalog slot, in catalog order `[1, 2, 3]`,
each entry's `available` true exactly when no booking row for `(d, slot)`
has status `'booked'`. -/
theorem C2_availability (st : DBState) (d : String) (hd : d ≠ "") :
    checkAvailability none st = .error missingDateErr ∧
    checkAvailability (some "") st = .error missingDateErr ∧
    availabilityCorrect d st.rows (checkAvailability (some d) st) := by
  refine ⟨rfl, rfl, ?_⟩
  unfold availabilityCorrect
  refine ⟨slotCatalog.map (fun p =>
    ⟨p.1, p.2,
      !(((st.rows.filter (fun r => r.date == d && r.status == "booked")).map
        Booking.slot).contains p.1)⟩), checkAvailability_eq d hd st, by rfl, ?_⟩
  intro e he
  simp only [List.mem_map] at he
  obtain ⟨p, hp, rfl⟩ := he
  simp only [Bool.not_eq_true']
  have hiff := contains_booked_slot_iff st.rows d p.1
  constructor
  · intro hcf hex
    rw [hiff.mpr hex] at hcf
    exact Bool.noConfusion hcf
  · intro hna
    cases hcb : ((st.rows.filter (fun r => r.date == d && r.status == "booked")).map
        Booking.slot).contains p.1
    · rfl
    · exact absurd (hiff.mp hcb) hna

def c2St : DBState :=
  ⟨[⟨1, "2024-05-01", 1, none, none, none, none, none, "booked"⟩], 2⟩

theorem C2_availability_witness :
    ("2024-05-01" : String) ≠ "" ∧
    (checkAvailability none c2St = .error missingDateErr ∧
     checkAvailability (some "") c2St = .error missingDateErr ∧
     availabilityCorrect "2024-05-01" c2St.rows
       (checkAvailability (some "2024-05-01") c2St)) :=
  ⟨by decide, C2_availability c2St "2024-05-01" (by decide)⟩

theorem completeBooking_ok {oid : Option Nat} {st st' : DBState}
    (h : completeBooking oid st = .ok st') :
    st' = ⟨st.rows.map (setStatus "completed" (oid.getD 0)), st.nextId⟩ := by
  unfold completeBooking at h
  split at h
  · exact absurd h (by simp)
  · cases hf : st.rows.find? (fun r => r.id == oid.getD 0) with
    | none => simp only [hf] at h; exact absurd h (by simp)
    | some r => simp only [hf, Except.ok.injEq] at h; exact h.symm

theorem stepAllowed_map (s : String) (i : Nat) (rows : List Booking) :
    stepAllowed s rows (rows.map (setStatus s i)) := by
  intro r' hr'
  simp only [List.mem_map] at hr'
  obtain ⟨r, hr, rfl⟩ := hr'
  refine ⟨r, hr, ?_⟩
  unfold setStatus
  split
  · exact Or.inr rfl
  · exact Or.inl rfl

def c3St : DBState :=
  ⟨[⟨1, "2024-05-01", 1, none, none, none, none, none, "canceled"⟩], 2⟩

/-- C3 counterexample: the claim says no operation ever moves a booking
between `canceled` and `completed`, and in particular that `completeBooking`
on a canceled booking does not change it.  But POST /admin/complete updates
the status unconditionally: on a state whose only row (id 1) is canceled,
`completeBooking(1)` succeeds and that row's status becomes `completed`. -/
theorem C3_counterexample :
    (∃ r ∈ c3St.rows, r.id = 1 ∧ r.status = "canceled") ∧
    completeBooking (some 1) c3St =
      .ok ⟨[⟨1, "2024-05-01", 1, none, none, none, none, none, "completed"⟩], 2⟩ := by
  decide

/-- C3 (amended): status changes are only ever overwrites to `canceled` (by
cancel) or `completed` (by complete): every row after a successful cancel or
complete is either an unchanged old row or an old row with only its status
overwritten by the operation's target status — so no operation ever moves a
booking back to `booked`.  However the overwrite is unconditional, so
transitions between `canceled` and `completed` are possible. -/
theorem C3_amended_no_return_to_booked (oid : Option Nat) (st st₁ st₂ : DBState)
    (h₁ : cancelBooking oid st = .ok st₁)
    (h₂ : completeBooking oid st = .ok st₂) :
    stepAllowed "canceled" st.rows st₁.rows ∧
    stepAllowed "completed" st.rows st₂.rows := by
  rw [cancelBooking_ok h₁, completeBooking_ok h₂]
  exact ⟨stepAllowed_map _ _ _, stepAllowed_map _ _ _⟩

def c3wSt : DBState :=
  ⟨[⟨1, "2024-05-01", 1, none, none, none, none, none, "booked"⟩], 2⟩

def c3wStC : DBState :=
  ⟨[⟨1, "2024-05-01", 1, none, none, none, none, none, "canceled"⟩], 2⟩

def c3wStD : DBState :=
  ⟨[⟨1, "2024-05-01", 1, none, none, none, none, none, "completed"⟩], 2⟩

theorem C3_amended_witness :
    stepAllowed "canceled" c3wSt.rows c3wStC.rows ∧
    stepAllowed "completed" c3wSt.rows c3wStD.rows :=
  C3_amended_no_return_to_booked (some 1) c3wSt c3wStC c3wStD
    (by decide) (by decide)

theorem uniqueSlots_symm :
    Symmetric (fun a b : Booking => ¬(a.date = b.date ∧ a.slot = b.slot)) :=
  fun _ _ h hc => h ⟨hc.1.symm, hc.2.symm⟩

/-- C4: for a booking row with status `booked`, once `cancelBooking(id)`
succeeds, `checkAvailability` on the booking's date reports the booking's
slot as `available == true` (wherever the catalog reports that slot). -/
theorem C4_cancel_frees_slot (st st' : DBState) (r : Booking) (i : Nat)
    (huniq : uniqueSlots st.rows)
    (hr : r ∈ st.rows) (hid : r.id = i) (hbooked : r.status = "booked")
    (hdate : r.date ≠ "")
    (hc : cancelBooking (some i) st = .ok st') :
    reportsFree (checkAvailability (some r.date) st') r.slot := by
  have hst' := cancelBooking_ok hc
  subst hst'
  unfold reportsFree
  refine ⟨_, checkAvailability_eq r.date hdate _, ?_⟩
  intro e he hesl
  simp only [List.mem_map] at he
  obtain ⟨p, hp, rfl⟩ := he
  simp only [Bool.not_eq_true']
  rw [Bool.eq_false_iff, Ne, contains_booked_slot_iff]
  rintro ⟨r'', hr'', hrd, hrsl, hrst⟩
  simp only [List.mem_map] at hr''
  obtain ⟨x, hx, rfl⟩ := hr''
  cases hix : (x.id == ((some i).getD 0 : Nat)) with
  | true =>
    unfold setStatus at hrst
    rw [if_pos hix] at hrst
    exact absurd hrst (by simp)
  | false =>
    unfold setStatus at hrd hrsl hrst
    rw [if_neg (by rw [hix]; simp)] at hrd hrsl hrst
    have hxr : x = r := by
      by_cases hxr : x = r
      · exact hxr
      · exact absurd ⟨hrd, by rw [hrsl]; exact hesl⟩
          (huniq.forall uniqueSlots_symm hx hr hxr)
    rw [hxr, hid] at hix
    simp at hix

def c4St : DBState :=
  ⟨[⟨1, "2024-05-01", 1, none, none, none, none, none, "booked"⟩], 2⟩

def c4StAfter : DBState :=
  ⟨[⟨1, "2024-05-01", 1, none, none, none, none, none, "canceled"⟩], 2⟩

theorem C4_cancel_frees_slot_witness :
    reportsFree (checkAvailability (some "2024-05-01") c4StAfter) 1 :=
  C4_cancel_frees_slot c4St c4StAfter
    ⟨1, "2024-05-01", 1, none, none, none, none, none, "booked"⟩ 1
    (List.pairwise_singleton _ _) (by decide) rfl rfl
    (by decide) (by decide)

def c5St : DBState :=
  ⟨[⟨1, "2000-01-01", 1, none, none, none, none, none, "canceled"⟩], 2⟩

/-- C5 counterexample: the claim says the empty filter returns only
currently-active upcoming bookings (status `booked`, date ≥ today).  But
GET /admin/bookings without a date runs `SELECT * FROM bookings` with no
WHERE clause: on a state whose only row is canceled (and dated 2000-01-01),
that row is returned. -/
theorem C5_counterexample :
    listBookings none c5St =
      [⟨1, "2000-01-01", 1, none, none, none, none, none, "canceled"⟩] ∧
    (⟨1, "2000-01-01", 1, none, none, none, none, none,
      "canceled"⟩ : Booking).status ≠ "booked" := by
  decide

/-- C5 (amended): `listBookings` with an empty filter returns all rows of
the table — every status and every date — ordered ascending by
`(date, slot)`. -/
theorem C5_amended_list_all (st : DBState) :
    List.Perm (listBookings none st) st.rows ∧
    List.Sorted bookingLE (listBookings none st) := by
  unfold listBookings
  rw [if_neg (by decide)]
  exact ⟨List.perm_insertionSort bookingLE st.rows,
    List.sorted_insertionSort bookingLE st.rows⟩

/-- C6 counterexample: POST /book performs no input validation.  A request
with no date is rejected, but with the same 400 "Slot already booked"
response used for slot conflicts — not a distinct `InvalidInput` error; and
a request whose date is present but empty is not rejected at all: the
insert proceeds and creates a booking for the empty date string. -/
theorem C6_counterexample :
    createBooking { date := none, slot := some 1 } dbEmpty =
      .error slotConflictErr ∧
    createBooking { date := some "", slot := some 1 } dbEmpty =
      .ok (1, ⟨[⟨1, "", 1, none, none, none, none, none, "booked"⟩], 2⟩) := by
  decide

/-- C6 (amended): `createBooking` performs no input validation.  A request
missing `date` or `slot` is rejected by the store's NOT NULL constraint
with the same 400 "Slot already booked" response used for slot conflicts
(no distinct `InvalidInput`), and a present-but-empty `date` is accepted:
whenever `("", slot)` is free the insert proceeds and creates the row. -/
theorem C6_amended_no_validation (req req' : BookReq) (st : DBState) (sl : Int)
    (h : req.date = none ∨ req.slot = none)
    (h2 : req'.date = some "") (h3 : req'.slot = some sl)
    (h4 : hasConflict st "" sl = false) :
    createBooking req st = .error slotConflictErr ∧
    insertsRow "" sl (createBooking req' st) := by
  constructor
  · unfold createBooking
    rcases h with h | h
    · rw [h]
    · rw [h]
      cases req.date <;> rfl
  · have heq : createBooking req' st = .ok (st.nextId,
        ⟨st.rows ++ [⟨st.nextId, "", sl, req'.name, req'.phone, req'.email,
          req'.address, req'.notes, "booked"⟩], st.nextId + 1⟩) := by
      unfold createBooking
      rw [h2, h3]
      simp only [h4, Bool.false_eq_true, if_false]
    exact ⟨st.nextId, _, heq, ⟨st.nextId, "", sl, req'.name, req'.phone,
      req'.email, req'.address, req'.notes, "booked"⟩, by simp, rfl, rfl, rfl,
      rfl⟩

theorem C6_amended_witness :
    createBooking { slot := some 1 } dbEmpty = .error slotConflictErr ∧
    insertsRow "" 1 (createBooking { date := some "", slot := some 1 } dbEmpty) :=
  C6_amended_no_validation { slot := some 1 } { date := some "", slot := some 1 }
    dbEmpty 1 (Or.inl rfl) rfl rfl (by decide)

def c7Cfg : EmailCfg := ⟨"key", "noreply@example.com", "owner@example.com"⟩

/-- C7 counterexample: with owner notification configured, a successful
POST /book awaits the e-mail send before `res.json`: the trace of a
successful booking is the completed e-mail call followed by the response,
and in particular the response is not the first event — the result is
returned only after waiting for notification delivery. -/
theorem C7_counterexample :
    (bookHandler c7Cfg (fun _ => true)
      { date := some "2024-05-01", slot := some 1 } dbEmpty).2 =
      [Event.emailSend "owner@example.com" true, Event.respond 200] ∧
    respondFirst (bookHandler c7Cfg (fun _ => true)
      { date := some "2024-05-01", slot := some 1 } dbEmpty).2 = false := by
  decide

theorem lastRespond_concat (l : List Event) (n : Nat) :
    lastRespond (l ++ [Event.respond n]) = true := by
  unfold lastRespond
  rw [List.getLast?_append_of_ne_nil _ (by simp)]
  rfl

/-- C7 (amended): notification outcomes never influence the result: for any
two network outcomes the response and resulting state of the book, cancel
and complete handlers are identical (`sendEmail` swallows every failure).
But delivery is awaited, not fire-and-forget: in every trace the response is
the last event, emitted only after all notification calls completed. -/
theorem C7_amended_notifications (cfg : EmailCfg) (o1 o2 : String → Bool)
    (req : BookReq) (oid : Option Nat) (st : DBState) :
    (bookHandler cfg o1 req st).1 = (bookHandler cfg o2 req st).1 ∧
    (cancelHandler cfg o1 oid st).1 = (cancelHandler cfg o2 oid st).1 ∧
    (completeHandler cfg o1 oid st).1 = (completeHandler cfg o2 oid st).1 ∧
    lastRespond (bookHandler cfg o1 req st).2 = true ∧
    lastRespond (cancelHandler cfg o1 oid st).2 = true ∧
    lastRespond (completeHandler cfg o1 oid st).2 = true := by
  refine ⟨?_, ?_, ?_, ?_, ?_, ?_⟩
  · unfold bookHandler
    cases h : createBooking req st with
    | error e => rfl
    | ok p => obtain ⟨bid, st'⟩ := p; rfl
  · unfold cancelHandler
    split
    · rfl
    · cases hf : st.rows.find? (fun r => r.id == oid.getD 0) with
      | none => simp only [hf]
      | some row => simp only [hf]
  · unfold completeHandler
    split
    · rfl
    · cases hf : st.rows.find? (fun r => r.id == oid.getD 0) with
      | none => simp only [hf]
      | some row => simp only [hf]
  · unfold bookHandler
    cases h : createBooking req st with
    | error e => rfl
    | ok p =>
      obtain ⟨bid, st'⟩ := p
      dsimp only
      exact lastRespond_concat _ _
  · unfold cancelHandler
    split
    · rfl
    · cases hf : st.rows.find? (fun r => r.id == oid.getD 0) with
      | none => simp only [hf]; rfl
      | some row => simp only [hf]; exact lastRespond_concat _ _
  · unfold completeHandler
    split
    · rfl
    · cases hf : st.rows.find? (fun r => r.id == oid.getD 0) with
      | none => simp only [hf]; rfl
      | some row => simp only [hf]; exact lastRespond_concat _ _

/-- C8: for every date `d` (a non-empty string — a falsy `date` query
parameter selects the unfiltered query instead), `listBookings({date: d})`
returns exactly the rows whose date equals `d`, regardless of their status,
sorted ascending by `(date, slot)`. -/
theorem C8_list_by_date (st : DBState) (d : String) (hd : d ≠ "") :
    List.Perm (listBookings (some d) st)
      (st.rows.filter (fun r => r.date == d)) ∧
    List.Sorted bookingLE (listBookings (some d) st) := by
  unfold listBookings
  rw [if_pos (by simp [truthyStr, hd])]
  exact ⟨List.perm_insertionSort bookingLE _,
    List.sorted_insertionSort bookingLE _⟩

def c8St : DBState :=
  ⟨[⟨1, "2024-05-02", 1, none, none, none, none, none, "booked"⟩,
    ⟨2, "2024-05-01", 2, none, none, none, none, none, "canceled"⟩,
    ⟨3, "2024-05-01", 1, none, none, none, none, none, "completed"⟩], 4⟩

theorem C8_list_by_date_witness :
    List.Perm (listBookings (some "2024-05-01") c8St)
      (c8St.rows.filter (fun r => r.date == "2024-05-01")) ∧
    List.Sorted bookingLE (listBookings (some "2024-05-01") c8St) :=
  C8_list_by_date c8St "2024-05-01" (by decide)

/-- C9: when a `(date, slot)` pair is occupied only by a canceled booking
(no booked row), `checkAvailability` reports that slot `available == true`,
yet `createBooking` for the same pair still fails with `SlotConflict`: the
`UNIQUE(date, slot)` constraint covers all statuses, so the canceled booking
blocks re-booking its slot. -/
theorem C9_canceled_blocks (st : DBState) (d : String) (sl : Int)
    (req : BookReq) (hd : d ≠ "")
    (hc : ∃ r ∈ st.rows, r.date = d ∧ r.slot = sl ∧ r.status = "canceled")
    (hnb : ∀ r ∈ st.rows, r.date = d → r.slot = sl → r.status ≠ "booked")
    (hreq : req.date = some d) (hreqs : req.slot = some sl) :
    reportsFree (checkAvailability (some d) st) sl ∧
    createBooking req st = .error slotConflictErr := by
  constructor
  · unfold reportsFree
    refine ⟨_, checkAvailability_eq d hd st, ?_⟩
    intro e he hesl
    simp only [List.mem_map] at he
    obtain ⟨p, hp, rfl⟩ := he
    simp only [Bool.not_eq_true']
    rw [Bool.eq_false_iff, Ne, contains_booked_slot_iff]
    rintro ⟨r, hr, hrd, hrsl, hrst⟩
    exact hnb r hr hrd (by rw [hrsl]; exact hesl) hrst
  · obtain ⟨r, hr, hrd, hrsl, _⟩ := hc
    unfold createBooking
    rw [hreq, hreqs]
    have hcf : hasConflict st d sl = true := by
      unfold hasConflict
      rw [List.any_eq_true]
      exact ⟨r, hr, by simp [hrd, hrsl]⟩
    simp only [hcf, if_true]

def c9St : DBState :=
  ⟨[⟨1, "2024-05-01", 1, none, none, none, none, none, "canceled"⟩], 2⟩

theorem C9_canceled_blocks_witness :
    reportsFree (checkAvailability (some "2024-05-01") c9St) 1 ∧
    createBooking { date := some "2024-05-01", slot := some 1 } c9St =
      .error slotConflictErr :=
  C9_canceled_blocks c9St "2024-05-01" 1
    { date := some "2024-05-01", slot := some 1 }
    (by decide) (by decide) (by decide) rfl rfl

/-- C10: `cancelBooking` is idempotent at the interface: for an existing id
whose booking is already canceled, calling it again reports success and
leaves every field of every row (and the whole database state) unchanged. -/
theorem C10_cancel_idempotent (st : DBState) (i : Nat) (hi : i ≠ 0)
    (hex : ∃ r ∈ st.rows, r.id = i)
    (hall : ∀ r ∈ st.rows, r.id = i → r.status = "canceled") :
    cancelBooking (some i) st = .ok st := by
  unfold cancelBooking
  rw [if_neg (by simp [truthyNat, hi])]
  obtain ⟨r0, hr0, hr0i⟩ := hex
  have hmap : st.rows.map (setStatus "canceled" ((some i).getD 0)) = st.rows := by
    conv_rhs => rw [← List.map_id st.rows]
    apply List.map_congr_left
    intro x hx
    by_cases hxi : x.id = i
    · exact setStatus_eq_self (hall x hx hxi)
    · unfold setStatus
      rw [if_neg (by simp [hxi])]
      rfl
  cases hf : st.rows.find? (fun r => r.id == (some i).getD 0) with
  | none =>
    rw [List.find?_eq_none] at hf
    exact absurd (by simp [hr0i] : (fun r => r.id == (some i).getD 0) r0 = true)
      (by simpa using hf r0 hr0)
  | some r =>
    simp only [hf, hmap]

def c10St : DBState :=
  ⟨[⟨1, "2024-05-01", 1, none, none, none, none, none, "canceled"⟩], 2⟩

theorem C10_cancel_idempotent_witness :
    cancelBooking (some 1) c10St = .ok c10St :=
  C10_cancel_idempotent c10St 1 (by decide) (by decide) (by decide)
